import Mathlib

/-!
Verification of the sense-on gaze/attention core.

Shallow embedding of the numeric core of the sense-on repository:

* `src/core/attention.ts` — eye-aspect-ratio (`computeEAR`) and the per-frame
  attention classifier (`computeAttention`);
* `src/core/filter.ts` — the One Euro adaptive exponential smoother
  (`createOneEuroFilter`);
* `src/core/gaze.ts` and the worker's inline feature extractor —
  `computeGazeRatio` and `computeGazeFeatures`;
* `src/core/head-pose.ts` — `matrixToEuler`;
* `src/core/calibration.ts` — ridge-regression calibration
  (`computeGazeTransform`, `applyGazeTransform`, Gaussian elimination);
* `src/composables/useAttention.ts` — the debounced attention session state
  machine (`processResult`).

Numeric model: JavaScript double arithmetic is idealized as exact rational
arithmetic over `ℚ`, with decimal literals read as the rationals they denote.
`Math.sqrt` is modelled by `ratSqrt` (exact on perfect squares — in particular
at `0` — and nonnegative everywhere; no theorem below depends on the value of a
square root outside those two facts).  `Math.PI` is modelled by `jsPI`, the
exact value of the IEEE-754 double that JavaScript's `Math.PI` denotes.
`matrixToEuler` is transcendental, so it alone is embedded over `ℝ`.
Where a claim is specifically about out-of-contract inputs
(`applyGazeTransform` on a mismatched feature vector), JS `undefined`/`NaN`
propagation is modelled with `Option ℚ`: `none` stands for a value that is not
a finite number (`undefined`, `NaN` or `±Infinity`).
-/

/-- Floor square root on `ℕ` by bounded linear search (structurally recursive,
so the kernel can evaluate it): largest `k` with `k * k ≤ n`, reached before
the fuel runs out since `k` never exceeds `n`. -/
def natSqrtIter (n : ℕ) : ℕ → ℕ → ℕ
  | 0, k => k
  | fuel + 1, k => if (k + 1) * (k + 1) ≤ n then natSqrtIter n fuel (k + 1) else k

/-- Floor square root on `ℕ` (kernel-evaluable). -/
def natSqrt (n : ℕ) : ℕ := natSqrtIter n n 0

/-- Models JS `Math.sqrt` on the rational idealization: exact on rationals whose
reduced numerator and denominator are perfect squares (in particular `ratSqrt 0 = 0`),
and a nonnegative rational approximation elsewhere.  Theorems below use only
exactness at perfect squares and nonnegativity. -/
def ratSqrt (q : ℚ) : ℚ :=
  (natSqrt q.num.toNat : ℚ) / (natSqrt q.den : ℚ)

theorem ratSqrt_nonneg (q : ℚ) : 0 ≤ ratSqrt q := by
  unfold ratSqrt
  positivity

/-- JS `Math.hypot(a, b)` (2-argument form) on the rational model. -/
def jsHypot (a b : ℚ) : ℚ := ratSqrt (a * a + b * b)

theorem jsHypot_nonneg (a b : ℚ) : 0 ≤ jsHypot a b := ratSqrt_nonneg _

/-- Embeds `Point2D` of `src/core/types.ts`. -/
structure Point2D where
  x : ℚ
  y : ℚ
deriving DecidableEq

/-- Embeds `Point3D` of `src/core/types.ts`. -/
structure Point3D where
  x : ℚ
  y : ℚ
  z : ℚ
deriving DecidableEq

/-- Embeds `EulerAngles` of `src/core/types.ts`. -/
structure EulerAngles where
  yaw : ℚ
  pitch : ℚ
  roll : ℚ
deriving DecidableEq

/-- Embeds `TrackingResult` of `src/core/types.ts`: optional fields are `Option`s,
`field?` access with `?? d` becomes `Option.getD`. -/
structure TrackingResult where
  faceCenter : Option Point2D
  headPose : Option EulerAngles
  landmarks : Option (List Point3D)
  inferenceMs : ℚ
  timestamp : ℚ
deriving DecidableEq

/-! ## `src/core/attention.ts` -/

/-- Embeds `AttentionState` of `src/core/attention.ts` (a TS union of string
literals, embedded as an enumeration). -/
inductive AttentionState where
  | attentive
  | looking_away
  | drowsy
  | absent
deriving DecidableEq

/-- Embeds `AttentionResult` of `src/core/attention.ts`. -/
structure AttentionResult where
  state : AttentionState
  headYaw : ℚ
  headPitch : ℚ
  eyeOpenness : ℚ
  facePresent : Bool
deriving DecidableEq

def YAW_THRESHOLD : ℚ := 25

def PITCH_THRESHOLD : ℚ := 20

def EAR_CLOSED : ℚ := 1 / 5

def LEFT_EYE_TOP : ℕ := 159

def LEFT_EYE_BOTTOM : ℕ := 145

def LEFT_EYE_INNER : ℕ := 133

def LEFT_EYE_OUTER : ℕ := 33

def RIGHT_EYE_TOP : ℕ := 386

def RIGHT_EYE_BOTTOM : ℕ := 374

def RIGHT_EYE_INNER : ℕ := 362

def RIGHT_EYE_OUTER : ℕ := 263

/-- Out-of-range landmark reads never happen on the guarded (`length ≥ 478`)
paths; `getD` with this default mirrors an always-in-range `landmarks[i]!`. -/
def pt0 : Point3D := ⟨0, 0, 0⟩

/-- Embeds `dist` of `src/core/attention.ts`: `Math.hypot(a.x - b.x, a.y - b.y)`. -/
def jsDist (a b : Point3D) : ℚ := jsHypot (a.x - b.x) (a.y - b.y)

theorem jsDist_nonneg (a b : Point3D) : 0 ≤ jsDist a b := jsHypot_nonneg _ _

/-- The left-eye corner span `lWidth` computed inside `computeEAR`. -/
def leftEyeWidth (l : List Point3D) : ℚ :=
  jsDist (l.getD LEFT_EYE_INNER pt0) (l.getD LEFT_EYE_OUTER pt0)

/-- The right-eye corner span `rWidth` computed inside `computeEAR`. -/
def rightEyeWidth (l : List Point3D) : ℚ :=
  jsDist (l.getD RIGHT_EYE_INNER pt0) (l.getD RIGHT_EYE_OUTER pt0)

/-- Embeds `leftEAR` of `computeEAR`: vertical lid span over corner span, `1` when the
corner span is at or below the `0.001` floor. -/
def leftEAR (l : List Point3D) : ℚ :=
  if leftEyeWidth l > 1 / 1000 then
    jsDist (l.getD LEFT_EYE_TOP pt0) (l.getD LEFT_EYE_BOTTOM pt0) / leftEyeWidth l
  else 1

/-- Embeds `rightEAR` of `computeEAR`. -/
def rightEAR (l : List Point3D) : ℚ :=
  if rightEyeWidth l > 1 / 1000 then
    jsDist (l.getD RIGHT_EYE_TOP pt0) (l.getD RIGHT_EYE_BOTTOM pt0) / rightEyeWidth l
  else 1

/-- Embeds `computeEAR` of `src/core/attention.ts`. -/
def computeEAR (l : List Point3D) : ℚ :=
  if l.length < 478 then 1
  else (leftEAR l + rightEAR l) / 2

/-- The `facePresent` test of `computeAttention`:
`!!result.faceCenter && !!result.landmarks?.length`. -/
def facePresentOf (r : TrackingResult) : Bool :=
  r.faceCenter.isSome && (match r.landmarks with
    | some l => !l.isEmpty
    | none => false)

/-- Embeds `result.headPose?.yaw ?? 0` inside `computeAttention`. -/
def yawOf (r : TrackingResult) : ℚ :=
  match r.headPose with
  | some hp => hp.yaw
  | none => 0

/-- Embeds `result.headPose?.pitch ?? 0` inside `computeAttention`. -/
def pitchOf (r : TrackingResult) : ℚ :=
  match r.headPose with
  | some hp => hp.pitch
  | none => 0

/-- Embeds `result.landmarks ? computeEAR(result.landmarks) : 1` inside
`computeAttention`. -/
def earOf (r : TrackingResult) : ℚ :=
  match r.landmarks with
  | some l => computeEAR l
  | none => 1

/-- The `state` selection of `computeAttention` (its face-present branch):
`looking_away` on a pose over threshold, else `drowsy` on a low EAR, else
`attentive` — in that order. -/
def attentionStateOf (r : TrackingResult) : AttentionState :=
  if |yawOf r| > YAW_THRESHOLD ∨ |pitchOf r| > PITCH_THRESHOLD then .looking_away
  else if earOf r < EAR_CLOSED then .drowsy
  else .attentive

/-- Embeds `computeAttention` of `src/core/attention.ts`. -/
def computeAttention (r : TrackingResult) : AttentionResult :=
  if facePresentOf r then ⟨attentionStateOf r, yawOf r, pitchOf r, earOf r, true⟩
  else ⟨.absent, 0, 0, 0, false⟩

/-! ### C4 — looking_away preempts drowsy -/

/-- C4: whenever a face is present and the (already filtered) |yaw| exceeds the
yaw threshold 25 or |pitch| exceeds the pitch threshold 20, `computeAttention`
classifies `looking_away` — regardless of the eye-aspect ratio, so in
particular even when the eyes read as closed (EAR < 0.2): the pose branch is
evaluated before the drowsy branch. -/
theorem computeAttention_pose_preempts_drowsy (r : TrackingResult)
    (hface : facePresentOf r = true)
    (hpose : YAW_THRESHOLD < |yawOf r| ∨ PITCH_THRESHOLD < |pitchOf r|) :
    (computeAttention r).state = AttentionState.looking_away := by
  unfold computeAttention
  rw [hface]
  simp only [if_true]
  unfold attentionStateOf
  rw [if_pos hpose]

/-- Landmark list with both eyes read as closed (EAR = 1/50 < 1/5): the base
face is 478 copies of the midpoint, with the eight eye landmarks overridden the
way the repository's own attention tests do. -/
def closedEyeLandmarks : List Point3D :=
  ((((((((List.replicate 478 ⟨1/2, 1/2, 0⟩).set 33 ⟨35/100, 2/5, 0⟩).set
    133 ⟨45/100, 2/5, 0⟩).set 159 ⟨2/5, 401/1000, 0⟩).set
    145 ⟨2/5, 399/1000, 0⟩).set 263 ⟨55/100, 2/5, 0⟩).set
    362 ⟨65/100, 2/5, 0⟩).set 386 ⟨3/5, 401/1000, 0⟩).set
    374 ⟨3/5, 399/1000, 0⟩

/-- A face-present observation with closed eyes and yaw 30 over the 25
threshold. -/
def c4Obs : TrackingResult :=
  { faceCenter := some ⟨1/2, 1/2⟩
    headPose := some ⟨30, 0, 0⟩
    landmarks := some closedEyeLandmarks
    inferenceMs := 10
    timestamp := 1000 }

/-- C4 witness: on a concrete observation with closed eyes (EAR = 1/50 < 0.2)
and yaw 30 > 25, the classifier answers `looking_away`, not `drowsy`. -/
theorem computeAttention_pose_preempts_drowsy_witness :
    (computeAttention c4Obs).state = AttentionState.looking_away :=
  computeAttention_pose_preempts_drowsy c4Obs (by decide) (Or.inl (by decide))

/-! ### C10 — degenerate landmark geometry yields a fully-open EAR -/

/-- C10: `computeEAR` answers `1` (fully open), not `0`, for every landmark
list shorter than 478; an eye whose corner span is at or below the `0.001`
floor contributes `1`; consequently a degraded landmark set always yields an
EAR at or above the closed-eye threshold `0.2`, and `computeAttention` can
never propose `drowsy` on it. -/
theorem computeEAR_degenerate_is_open (l : List Point3D) :
    (l.length < 478 → computeEAR l = 1) ∧
    (leftEyeWidth l ≤ 1 / 1000 → leftEAR l = 1) ∧
    (rightEyeWidth l ≤ 1 / 1000 → rightEAR l = 1) ∧
    ((l.length < 478 ∨ leftEyeWidth l ≤ 1 / 1000 ∨ rightEyeWidth l ≤ 1 / 1000) →
      EAR_CLOSED ≤ computeEAR l ∧
      ∀ r : TrackingResult, r.landmarks = some l →
        (computeAttention r).state ≠ AttentionState.drowsy) := by
  have hL : leftEyeWidth l ≤ 1 / 1000 → leftEAR l = 1 := by
    intro h
    unfold leftEAR
    rw [if_neg (by linarith)]
  have hR : rightEyeWidth l ≤ 1 / 1000 → rightEAR l = 1 := by
    intro h
    unfold rightEAR
    rw [if_neg (by linarith)]
  have hLnn : 0 ≤ leftEAR l := by
    unfold leftEAR
    split
    · have h1 : (0 : ℚ) < leftEyeWidth l := by linarith
      exact div_nonneg (jsDist_nonneg _ _) (le_of_lt h1)
    · norm_num
  have hRnn : 0 ≤ rightEAR l := by
    unfold rightEAR
    split
    · have h1 : (0 : ℚ) < rightEyeWidth l := by linarith
      exact div_nonneg (jsDist_nonneg _ _) (le_of_lt h1)
    · norm_num
  have hshort : l.length < 478 → computeEAR l = 1 := by
    intro h
    unfold computeEAR
    rw [if_pos h]
  have hmain : (l.length < 478 ∨ leftEyeWidth l ≤ 1 / 1000 ∨ rightEyeWidth l ≤ 1 / 1000) →
      EAR_CLOSED ≤ computeEAR l := by
    intro h
    rcases h with h | h | h
    · rw [hshort h]
      norm_num [EAR_CLOSED]
    · unfold computeEAR
      split
      · norm_num [EAR_CLOSED]
      · rw [hL h]
        unfold EAR_CLOSED
        linarith
    · unfold computeEAR
      split
      · norm_num [EAR_CLOSED]
      · rw [hR h]
        unfold EAR_CLOSED
        linarith
  refine ⟨hshort, hL, hR, fun h => ⟨hmain h, ?_⟩⟩
  intro r hlm
  have hear : earOf r = computeEAR l := by
    unfold earOf
    rw [hlm]
  unfold computeAttention
  split
  · simp only
    unfold attentionStateOf
    split
    · simp
    · rw [if_neg]
      · simp
      · push_neg
        rw [hear]
        exact hmain h
  · simp

/-! ## `src/core/filter.ts` — One Euro filter -/

/-- The exact rational value of the IEEE-754 double `Math.PI`. -/
def jsPI : ℚ := 884279719003555 / 281474976710656

/-- Embeds `FilterOptions` of `src/core/types.ts` (all fields optional). -/
structure FilterOptions where
  minCutoff : Option ℚ := none
  beta : Option ℚ := none
  dCutoff : Option ℚ := none
deriving DecidableEq

/-- The three parameters `createOneEuroFilter` captures after applying its
`?? 1.0`, `?? 0.007`, `?? 1.0` defaults. -/
structure OneEuroParams where
  minCutoff : ℚ
  beta : ℚ
  dCutoff : ℚ
deriving DecidableEq

/-- The default resolution in `createOneEuroFilter`. -/
def createOneEuroFilter (o : FilterOptions) : OneEuroParams :=
  ⟨o.minCutoff.getD 1, o.beta.getD (7 / 1000), o.dCutoff.getD 1⟩

/-- The closure state of a filter instance: `lastTime`, `lastValue`, `lastDx`. -/
structure OneEuroState where
  lastTime : ℚ
  lastValue : ℚ
  lastDx : ℚ
deriving DecidableEq

/-- A fresh filter instance: `lastTime = -1`, `lastValue = 0`, `lastDx = 0`. -/
def oneEuroInit : OneEuroState := ⟨-1, 0, 0⟩

/-- Embeds `reset()` of `createOneEuroFilter`: restores the fresh state. -/
def oneEuroReset (_ : OneEuroState) : OneEuroState := oneEuroInit

/-- Embeds `smoothingFactor` of `src/core/filter.ts`. -/
def smoothingFactor (te cutoff : ℚ) : ℚ :=
  1 / (1 + (1 / (2 * jsPI * cutoff)) / te)

/-- Embeds `exponentialSmoothing` of `src/core/filter.ts`. -/
def exponentialSmoothing (alpha current previous : ℚ) : ℚ :=
  alpha * current + (1 - alpha) * previous

/-- The smoothed derivative `edx` computed in `filter()`'s main branch. -/
def oneEuroEdx (p : OneEuroParams) (s : OneEuroState) (value timestamp : ℚ) : ℚ :=
  exponentialSmoothing (smoothingFactor (timestamp - s.lastTime) p.dCutoff)
    ((value - s.lastValue) / (timestamp - s.lastTime)) s.lastDx

/-- The adaptive `cutoff = minCutoff + beta * |edx|` of `filter()`. -/
def oneEuroCutoff (p : OneEuroParams) (s : OneEuroState) (value timestamp : ℚ) : ℚ :=
  p.minCutoff + p.beta * |oneEuroEdx p s value timestamp|

/-- The smoothed `result` of `filter()`'s main branch. -/
def oneEuroResult (p : OneEuroParams) (s : OneEuroState) (value timestamp : ℚ) : ℚ :=
  exponentialSmoothing
    (smoothingFactor (timestamp - s.lastTime) (oneEuroCutoff p s value timestamp))
    value s.lastValue

/-- Embeds `filter(value, timestamp)` of `createOneEuroFilter`, with the mutable
closure state passed explicitly: returns the output and the new state. -/
def oneEuroFilter (p : OneEuroParams) (s : OneEuroState) (value timestamp : ℚ) :
    ℚ × OneEuroState :=
  if s.lastTime < 0 then (value, ⟨timestamp, value, 0⟩)
  else if timestamp - s.lastTime ≤ 0 then (s.lastValue, s)
  else
    (oneEuroResult p s value timestamp,
      ⟨timestamp, oneEuroResult p s value timestamp, oneEuroEdx p s value timestamp⟩)

/-- Feeding a list of `(value, timestamp)` samples through one filter
instance, threading the state; the list of outputs. -/
def filterOutputs (p : OneEuroParams) : OneEuroState → List (ℚ × ℚ) → List ℚ
  | _, [] => []
  | s, (v, t) :: rest =>
    (oneEuroFilter p s v t).1 :: filterOutputs p (oneEuroFilter p s v t).2 rest

/-- Invariant carried along a constant-input run: the state is either still
fresh or already stores the constant with a zero smoothed derivative. -/
theorem oneEuroFilter_const_aux (p : OneEuroParams) (v : ℚ) :
    ∀ (ts : List ℚ) (s : OneEuroState),
      s.lastTime < 0 ∨ (s.lastValue = v ∧ s.lastDx = 0) →
      filterOutputs p s (ts.map fun t => (v, t)) = List.replicate ts.length v := by
  intro ts
  induction ts with
  | nil =>
    intro s _
    simp [filterOutputs]
  | cons t rest ih =>
    intro s hs
    simp only [List.map_cons, filterOutputs, List.length_cons, List.replicate_succ]
    by_cases h0 : s.lastTime < 0
    · rw [show oneEuroFilter p s v t = (v, ⟨t, v, 0⟩) by
        unfold oneEuroFilter
        rw [if_pos h0]]
      exact congrArg _ (ih _ (Or.inr ⟨rfl, rfl⟩))
    · obtain ⟨hv, hd⟩ : s.lastValue = v ∧ s.lastDx = 0 := hs.resolve_left h0
      by_cases hte : t - s.lastTime ≤ 0
      · rw [show oneEuroFilter p s v t = (s.lastValue, s) by
          unfold oneEuroFilter
          rw [if_neg h0, if_pos hte]]
        rw [hv]
        exact congrArg _ (ih _ hs)
      · have hres : oneEuroResult p s v t = v := by
          unfold oneEuroResult exponentialSmoothing
          rw [hv]
          ring
        have hedx : oneEuroEdx p s v t = 0 := by
          unfold oneEuroEdx exponentialSmoothing
          rw [hv, hd, sub_self, zero_div]
          ring
        rw [show oneEuroFilter p s v t =
            (oneEuroResult p s v t,
              ⟨t, oneEuroResult p s v t, oneEuroEdx p s v t⟩) by
          unfold oneEuroFilter
          rw [if_neg h0, if_neg hte]]
        rw [hres]
        exact congrArg _ (ih _ (Or.inr ⟨rfl, hedx⟩))

/-- C6: a One Euro filter instance (fresh, or after `reset()`, which restores
the fresh state) fed a constant value `v` at strictly increasing timestamps
returns exactly `v` at every call: the first call is a passthrough and a
constant input is a fixed point of the smoother. -/
theorem oneEuroFilter_constant_fixed_point (o : FilterOptions) (v : ℚ)
    (ts : List ℚ) (s : OneEuroState)
    (_hts : List.Chain' (fun a b : ℚ => a < b) ts) :
    oneEuroReset s = oneEuroInit ∧
    filterOutputs (createOneEuroFilter o) oneEuroInit (ts.map fun t => (v, t)) =
      List.replicate ts.length v :=
  ⟨rfl, oneEuroFilter_const_aux _ v ts oneEuroInit (Or.inl (by norm_num [oneEuroInit]))⟩

/-- C6 witness: default options, constant value 5 at timestamps 0,1,2. -/
theorem oneEuroFilter_constant_fixed_point_witness :
    oneEuroReset ⟨5, 7, 9⟩ = oneEuroInit ∧
    filterOutputs (createOneEuroFilter ⟨none, none, none⟩) oneEuroInit
      (([0, 1, 2] : List ℚ).map fun t => ((5 : ℚ), t)) = List.replicate 3 5 :=
  oneEuroFilter_constant_fixed_point ⟨none, none, none⟩ 5 [0, 1, 2] ⟨5, 7, 9⟩
    (by norm_num [List.chain'_cons, List.chain'_singleton])

/-! ## `src/core/gaze.ts` and the worker's inline feature extractor -/

def MIN_LANDMARKS : ℕ := 478

def LEFT_IRIS_CENTER : ℕ := 468

def RIGHT_IRIS_CENTER : ℕ := 473

/-- Embeds `computeGazeRatio` of `src/core/gaze.ts`: combined horizontal/vertical
iris ratios in `[-1, 1]`, `(0, 0)` for a landmark list shorter than 478.
Total — degraded input returns the neutral value, it never throws. -/
def computeGazeRatio (l : List Point3D) : Point2D :=
  if l.length < MIN_LANDMARKS then ⟨0, 0⟩
  else
    let li := l.getD LEFT_IRIS_CENTER pt0
    let lInner := l.getD LEFT_EYE_INNER pt0
    let lOuter := l.getD LEFT_EYE_OUTER pt0
    let ri := l.getD RIGHT_IRIS_CENTER pt0
    let rInner := l.getD RIGHT_EYE_INNER pt0
    let rOuter := l.getD RIGHT_EYE_OUTER pt0
    let lDx := lOuter.x - lInner.x
    let rDx := rOuter.x - rInner.x
    let lRatioX := if lDx ≠ 0 then (li.x - lInner.x) / lDx else 1 / 2
    let rRatioX := if rDx ≠ 0 then (ri.x - rInner.x) / rDx else 1 / 2
    let lTop := l.getD LEFT_EYE_TOP pt0
    let lBot := l.getD LEFT_EYE_BOTTOM pt0
    let rTop := l.getD RIGHT_EYE_TOP pt0
    let rBot := l.getD RIGHT_EYE_BOTTOM pt0
    let lDy := lBot.y - lTop.y
    let rDy := rBot.y - rTop.y
    let lRatioY := if lDy ≠ 0 then (li.y - lTop.y) / lDy else 1 / 2
    let rRatioY := if rDy ≠ 0 then (ri.y - rTop.y) / rDy else 1 / 2
    ⟨lRatioX + rRatioX - 1, lRatioY + rRatioY - 1⟩

/-- Embeds `GazeFeatures` of the worker (`tracker.worker.ts`). -/
structure GazeFeatures where
  leftGaze : Point2D
  rightGaze : Point2D
  headYaw : ℚ
  headPitch : ℚ
deriving DecidableEq

/-- Embeds `computeGazeFeatures` of the worker: per-eye iris offsets normalized by
the eye's own corner span, plus geometric head-pose proxies; the all-zero
neutral vector for a landmark list shorter than 478.  Total — never throws. -/
def computeGazeFeatures (l : List Point3D) : GazeFeatures :=
  if l.length < 478 then ⟨⟨0, 0⟩, ⟨0, 0⟩, 0, 0⟩
  else
    let li := l.getD 468 pt0
    let ri := l.getD 473 pt0
    let lIn := l.getD 133 pt0
    let lOut := l.getD 33 pt0
    let rIn := l.getD 362 pt0
    let rOut := l.getD 263 pt0
    let nose := l.getD 1 pt0
    let cheekL := l.getD 234 pt0
    let cheekR := l.getD 454 pt0
    let forehead := l.getD 10 pt0
    let chin := l.getD 152 pt0
    let lCenterX := (lIn.x + lOut.x) / 2
    let lCenterY := (lIn.y + lOut.y) / 2
    let lWidth := jsHypot (lIn.x - lOut.x) (lIn.y - lOut.y)
    let safeLW := if lWidth > 1 / 1000 then lWidth else 1 / 1000
    let rCenterX := (rIn.x + rOut.x) / 2
    let rCenterY := (rIn.y + rOut.y) / 2
    let rWidth := jsHypot (rIn.x - rOut.x) (rIn.y - rOut.y)
    let safeRW := if rWidth > 1 / 1000 then rWidth else 1 / 1000
    let faceMidX := (cheekL.x + cheekR.x) / 2
    let faceWidth := |cheekR.x - cheekL.x|
    let safeFW := if faceWidth > 1 / 1000 then faceWidth else 1 / 1000
    let eyeMidY := (lCenterY + rCenterY) / 2
    let faceHeight := |chin.y - forehead.y|
    let safeFH := if faceHeight > 1 / 1000 then faceHeight else 1 / 1000
    ⟨⟨(li.x - lCenterX) / safeLW, (li.y - lCenterY) / safeLW⟩,
      ⟨(ri.x - rCenterX) / safeRW, (ri.y - rCenterY) / safeRW⟩,
      (nose.x - faceMidX) / safeFW,
      (nose.y - eyeMidY) / safeFH⟩

/-! ### C8 — short landmark lists yield the neutral feature vector -/

/-- C8: for every landmark list shorter than 478 entries, `computeGazeRatio`
returns the neutral `(0, 0)` gaze ratio and `computeGazeFeatures` returns the
all-zero feature vector (zero per-eye gaze and zero head-pose proxies).  Both
embeddings are total functions, so neither can throw. -/
theorem gaze_short_landmarks_neutral (l : List Point3D) (h : l.length < 478) :
    computeGazeRatio l = ⟨0, 0⟩ ∧
    computeGazeFeatures l = ⟨⟨0, 0⟩, ⟨0, 0⟩, 0, 0⟩ := by
  constructor
  · unfold computeGazeRatio
    rw [if_pos (show l.length < MIN_LANDMARKS from h)]
  · unfold computeGazeFeatures
    rw [if_pos h]

/-- C8 witness: the empty landmark list. -/
theorem gaze_short_landmarks_neutral_witness :
    computeGazeRatio [] = ⟨0, 0⟩ ∧
    computeGazeFeatures [] = ⟨⟨0, 0⟩, ⟨0, 0⟩, 0, 0⟩ :=
  gaze_short_landmarks_neutral [] (by decide)

/-! ## `src/core/head-pose.ts` — `matrixToEuler`

Transcendental (asin/atan2), so embedded over `ℝ`. -/

/-- The ℝ-valued Euler angles for the head-pose path. -/
structure EulerAnglesR where
  yaw : ℝ
  pitch : ℝ
  roll : ℝ

/-- Embeds `RAD2DEG = 180 / Math.PI` of `src/core/head-pose.ts` (ideal π). -/
noncomputable def RAD2DEG : ℝ := 180 / Real.pi

/-- Embeds `clamp` of `src/core/head-pose.ts`. -/
noncomputable def clampR (v lo hi : ℝ) : ℝ :=
  if v < lo then lo else if v > hi then hi else v

/-- Models JS `Math.atan2(y, x)` on ideal reals (signed zeros ignored):
the angle of the point `(x, y)` in `(-π, π]`. -/
noncomputable def jsAtan2 (y x : ℝ) : ℝ :=
  if 0 < x then Real.arctan (y / x)
  else if x < 0 then
    (if 0 ≤ y then Real.arctan (y / x) + Real.pi else Real.arctan (y / x) - Real.pi)
  else
    (if 0 < y then Real.pi / 2 else if y < 0 then -(Real.pi / 2) else 0)

/-- Embeds `matrixToEuler` of `src/core/head-pose.ts`: reads the rotation sub-block of
a 4×4 column-major matrix (`R[row][col] = m[col*4 + row]`, missing entries
defaulted per `?? 0` / `?? 1`) as a ZYX Tait-Bryan sequence, with the asin
argument clamped to `[-1, 1]`, and converts to degrees. -/
noncomputable def matrixToEuler (m : List ℝ) : EulerAnglesR :=
  ⟨Real.arcsin (-(clampR (m.getD 2 0) (-1) 1)) * RAD2DEG,
    jsAtan2 (m.getD 6 0) (m.getD 10 1) * RAD2DEG,
    jsAtan2 (m.getD 1 0) (m.getD 0 1) * RAD2DEG⟩

/-- The 4×4 identity in column-major order. -/
noncomputable def identityMatrix : List ℝ :=
  [1, 0, 0, 0, 0, 1, 0, 0, 0, 0, 1, 0, 0, 0, 0, 1]

/-- Degrees to radians, for building the test rotations. -/
noncomputable def deg2rad (θ : ℝ) : ℝ := θ * Real.pi / 180

/-- Column-major 4×4 pure rotation by `θ` degrees about the Y axis. -/
noncomputable def rotYMatrix (θ : ℝ) : List ℝ :=
  [Real.cos (deg2rad θ), 0, -Real.sin (deg2rad θ), 0,
   0, 1, 0, 0,
   Real.sin (deg2rad θ), 0, Real.cos (deg2rad θ), 0,
   0, 0, 0, 1]

/-- Column-major 4×4 pure rotation by `θ` degrees about the X axis. -/
noncomputable def rotXMatrix (θ : ℝ) : List ℝ :=
  [1, 0, 0, 0,
   0, Real.cos (deg2rad θ), Real.sin (deg2rad θ), 0,
   0, -Real.sin (deg2rad θ), Real.cos (deg2rad θ), 0,
   0, 0, 0, 1]

/-- Column-major 4×4 pure rotation by `θ` degrees about the Z axis. -/
noncomputable def rotZMatrix (θ : ℝ) : List ℝ :=
  [Real.cos (deg2rad θ), Real.sin (deg2rad θ), 0, 0,
   -Real.sin (deg2rad θ), Real.cos (deg2rad θ), 0, 0,
   0, 0, 1, 0,
   0, 0, 0, 1]

theorem deg2rad_bounds {θ : ℝ} (h1 : -90 < θ) (h2 : θ < 90) :
    -(Real.pi / 2) < deg2rad θ ∧ deg2rad θ < Real.pi / 2 := by
  have hpi := Real.pi_pos
  unfold deg2rad
  constructor
  · nlinarith [mul_pos (show (0:ℝ) < θ + 90 by linarith) hpi]
  · nlinarith [mul_pos (show (0:ℝ) < 90 - θ by linarith) hpi]

theorem deg2rad_mul_RAD2DEG (θ : ℝ) : deg2rad θ * RAD2DEG = θ := by
  unfold deg2rad RAD2DEG
  field_simp

theorem jsAtan2_zero_of_pos {x : ℝ} (hx : 0 < x) : jsAtan2 0 x = 0 := by
  unfold jsAtan2
  rw [if_pos hx, zero_div, Real.arctan_zero]

theorem jsAtan2_sin_cos {a : ℝ} (h1 : -(Real.pi / 2) < a) (h2 : a < Real.pi / 2) :
    jsAtan2 (Real.sin a) (Real.cos a) = a := by
  have hc : 0 < Real.cos a := Real.cos_pos_of_mem_Ioo ⟨h1, h2⟩
  unfold jsAtan2
  rw [if_pos hc, ← Real.tan_eq_sin_div_cos, Real.arctan_tan h1 h2]

theorem clampR_of_abs_le {v : ℝ} (h : |v| ≤ 1) : clampR v (-1) 1 = v := by
  rw [abs_le] at h
  unfold clampR
  rw [if_neg (by linarith), if_neg (by linarith)]

/-! ### C7 — Euler extraction on the identity and on pure rotations -/

/-- C7: `matrixToEuler` sends the 4×4 column-major identity to
yaw = pitch = roll = 0; a pure Y-rotation of θ degrees to yaw = θ, a pure
X-rotation to pitch = θ and a pure Z-rotation to roll = θ (other angles 0),
computed as `yaw = asin(-R[2][0])` with the argument clamped to `[-1, 1]`,
`pitch = atan2(R[2][1], R[2][2])`, `roll = atan2(R[1][0], R[0][0])`, in
degrees.  On ideal reals the angles are exact, which subsumes the claim's
floating tolerance. -/
theorem matrixToEuler_identity_and_pure_rotations (θy θx θz : ℝ)
    (hy1 : -90 < θy) (hy2 : θy < 90) (hx1 : -90 < θx) (hx2 : θx < 90)
    (hz1 : -90 < θz) (hz2 : θz < 90) :
    matrixToEuler identityMatrix = ⟨0, 0, 0⟩ ∧
    matrixToEuler (rotYMatrix θy) = ⟨θy, 0, 0⟩ ∧
    matrixToEuler (rotXMatrix θx) = ⟨0, θx, 0⟩ ∧
    matrixToEuler (rotZMatrix θz) = ⟨0, 0, θz⟩ := by
  have habs : ∀ a : ℝ, |Real.sin a| ≤ 1 := fun a =>
    abs_le.2 ⟨Real.neg_one_le_sin a, Real.sin_le_one a⟩
  refine ⟨?_, ?_, ?_, ?_⟩
  · show EulerAnglesR.mk (Real.arcsin (-(clampR 0 (-1) 1)) * RAD2DEG)
      (jsAtan2 0 1 * RAD2DEG) (jsAtan2 0 1 * RAD2DEG) = ⟨0, 0, 0⟩
    rw [clampR_of_abs_le (by norm_num), neg_zero, Real.arcsin_zero, zero_mul,
      jsAtan2_zero_of_pos one_pos, zero_mul]
  · obtain ⟨hb1, hb2⟩ := deg2rad_bounds hy1 hy2
    have hc : 0 < Real.cos (deg2rad θy) := Real.cos_pos_of_mem_Ioo ⟨hb1, hb2⟩
    show EulerAnglesR.mk
      (Real.arcsin (-(clampR (-Real.sin (deg2rad θy)) (-1) 1)) * RAD2DEG)
      (jsAtan2 0 (Real.cos (deg2rad θy)) * RAD2DEG)
      (jsAtan2 0 (Real.cos (deg2rad θy)) * RAD2DEG) = ⟨θy, 0, 0⟩
    rw [clampR_of_abs_le (by rw [abs_neg]; exact habs _), neg_neg,
      Real.arcsin_sin (le_of_lt hb1) (le_of_lt hb2), deg2rad_mul_RAD2DEG,
      jsAtan2_zero_of_pos hc, zero_mul]
  · obtain ⟨hb1, hb2⟩ := deg2rad_bounds hx1 hx2
    show EulerAnglesR.mk (Real.arcsin (-(clampR 0 (-1) 1)) * RAD2DEG)
      (jsAtan2 (Real.sin (deg2rad θx)) (Real.cos (deg2rad θx)) * RAD2DEG)
      (jsAtan2 0 1 * RAD2DEG) = ⟨0, θx, 0⟩
    rw [clampR_of_abs_le (by norm_num), neg_zero, Real.arcsin_zero, zero_mul,
      jsAtan2_sin_cos hb1 hb2, deg2rad_mul_RAD2DEG,
      jsAtan2_zero_of_pos one_pos, zero_mul]
  · obtain ⟨hb1, hb2⟩ := deg2rad_bounds hz1 hz2
    show EulerAnglesR.mk (Real.arcsin (-(clampR 0 (-1) 1)) * RAD2DEG)
      (jsAtan2 0 1 * RAD2DEG)
      (jsAtan2 (Real.sin (deg2rad θz)) (Real.cos (deg2rad θz)) * RAD2DEG) = ⟨0, 0, θz⟩
    rw [clampR_of_abs_le (by norm_num), neg_zero, Real.arcsin_zero, zero_mul,
      jsAtan2_zero_of_pos one_pos, zero_mul,
      jsAtan2_sin_cos hb1 hb2, deg2rad_mul_RAD2DEG]

/-- C7 witness: the identity and pure 30° rotations about each axis. -/
theorem matrixToEuler_identity_and_pure_rotations_witness :
    matrixToEuler identityMatrix = ⟨0, 0, 0⟩ ∧
    matrixToEuler (rotYMatrix 30) = ⟨30, 0, 0⟩ ∧
    matrixToEuler (rotXMatrix 30) = ⟨0, 30, 0⟩ ∧
    matrixToEuler (rotZMatrix 30) = ⟨0, 0, 30⟩ :=
  matrixToEuler_identity_and_pure_rotations 30 30 30 (by norm_num) (by norm_num)
    (by norm_num) (by norm_num) (by norm_num) (by norm_num)

/-! ## `src/core/calibration.ts` — ridge-regression calibration -/

/-- Embeds `GazeTransform` of `src/core/calibration.ts`. -/
structure GazeTransform where
  xCoeffs : List ℚ
  yCoeffs : List ℚ
  featureMean : List ℚ
  featureStd : List ℚ
  numFeatures : ℕ
deriving DecidableEq

/-- Embeds `CalibrationSample` of `src/core/calibration.ts`. -/
structure CalibrationSample where
  features : List ℚ
  screen : Point2D
deriving DecidableEq

/-- The partial-pivot search of `solveLinearSystem`: starting from `col`, take
the first row in `col+1 .. n-1` whose entry strictly improves on the current
maximum absolute value. -/
def pivotRow (aug : List (List ℚ)) (col n : ℕ) : ℕ :=
  (List.range' (col + 1) (n - (col + 1))).foldl
    (fun best row =>
      if |(aug.getD row []).getD col 0| > |(aug.getD best []).getD col 0| then row
      else best)
    col

/-- The destructuring swap `[aug[col], aug[maxRow]] = [aug[maxRow], aug[col]]`. -/
def swapRows (aug : List (List ℚ)) (i j : ℕ) : List (List ℚ) :=
  (aug.set i (aug.getD j [])).set j (aug.getD i [])

/-- One inner elimination row of `solveLinearSystem`: subtract
`factor * aug[col][j]` from `aug[row][j]` for `j = col .. n` (the factor is
fixed before the inner loop, as in the source). -/
def rowEliminate (aug : List (List ℚ)) (col row n : ℕ) : List (List ℚ) :=
  let factor := (aug.getD row []).getD col 0 / (aug.getD col []).getD col 0
  (List.range' col (n + 1 - col)).foldl
    (fun a j =>
      a.set row ((a.getD row []).set j
        ((a.getD row []).getD j 0 - factor * ((a.getD col []).getD j 0))))
    aug

/-- One outer column step of the forward elimination: pivot search, row swap,
singularity guard (`|pivot| < 1e-12` fails the solve), elimination below. -/
def elimStep (n : ℕ) (aug : List (List ℚ)) (col : ℕ) : Option (List (List ℚ)) :=
  let a1 := swapRows aug col (pivotRow aug col n)
  if |(a1.getD col []).getD col 0| < 1 / 1000000000000 then none
  else some ((List.range' (col + 1) (n - (col + 1))).foldl
    (fun a row => rowEliminate a col row n) a1)

/-- The forward-elimination loop over all columns. -/
def forwardElim (aug : List (List ℚ)) (n : ℕ) : Option (List (List ℚ)) :=
  (List.range n).foldlM (fun a col => elimStep n a col) aug

/-- The running right-hand side of back substitution for row `i`: start from
`aug[i][n]` and subtract `aug[i][j] * x[j]` for `j = i+1 .. n-1`; `x` holds the
already-solved entries `x[i+1..n-1]`. -/
def backSubSum (augRow : List ℚ) (x : List ℚ) (i n : ℕ) : ℚ :=
  (List.range' (i + 1) (n - (i + 1))).foldl
    (fun s j => s - augRow.getD j 0 * x.getD (j - (i + 1)) 0)
    (augRow.getD n 0)

/-- The back-substitution loop of `solveLinearSystem`, solving rows from
`n-1` down to `0`. -/
def backSub (aug : List (List ℚ)) (n : ℕ) : List ℚ :=
  (List.range n).foldr
    (fun i x => backSubSum (aug.getD i []) x i n / (aug.getD i []).getD i 0 :: x)
    []

/-- Embeds `solveLinearSystem` of `src/core/calibration.ts`: n×n Gaussian elimination
with partial pivoting on the augmented matrix `[A | b]`; `none` on a
numerically singular pivot. -/
def solveLinearSystem (A : List (List ℚ)) (b : List ℚ) : Option (List ℚ) :=
  let n := A.length
  let aug := A.enum.map fun p => p.2 ++ [b.getD p.1 0]
  match forwardElim aug n with
  | none => none
  | some a => some (backSub a n)

/-- Embeds `buildAtA` of `src/core/calibration.ts`: the normal-equations matrix
`AᵀA` with ridge `lambda` added on the diagonal of every original feature
(never the bias at the last index), plus the right-hand sides `Aᵀbx`, `Aᵀby`. -/
def buildAtA (rows : List (List ℚ)) (samples : List CalibrationSample)
    (lambda : ℚ) (numFeatures numParams : ℕ) :
    List (List ℚ) × List ℚ × List ℚ :=
  let pairs := rows.zip samples
  let AtA := (List.range numParams).map fun i =>
    (List.range numParams).map fun j =>
      (pairs.foldl (fun s p => s + p.1.getD i 0 * p.1.getD j 0) 0) +
        (if i = j ∧ i < numFeatures then lambda else 0)
  let Atbx := (List.range numParams).map fun i =>
    pairs.foldl (fun s p => s + p.1.getD i 0 * p.2.screen.x) 0
  let Atby := (List.range numParams).map fun i =>
    pairs.foldl (fun s p => s + p.1.getD i 0 * p.2.screen.y) 0
  (AtA, Atbx, Atby)

/-- Embeds `samples[0]!.features.length` — the feature dimension a fit is keyed on. -/
def numFeaturesOf (samples : List CalibrationSample) : ℕ :=
  (samples.headD ⟨[], ⟨0, 0⟩⟩).features.length

/-- The per-feature mean over the sample set. -/
def sampleMean (rawFeatures : List (List ℚ)) (numFeatures n : ℕ) : List ℚ :=
  (List.range numFeatures).map fun i =>
    (rawFeatures.foldl (fun s f => s + f.getD i 0) 0) / (n : ℚ)

/-- The per-feature standard deviation, with the `std < 1e-10 → std = 1`
degenerate-variance guard of the source. -/
def sampleStd (rawFeatures : List (List ℚ)) (mean : List ℚ)
    (numFeatures n : ℕ) : List ℚ :=
  (List.range numFeatures).map fun i =>
    let s := ratSqrt
      ((rawFeatures.foldl (fun acc f => acc + (f.getD i 0 - mean.getD i 0) ^ 2) 0) / (n : ℚ))
    if s < 1 / 10000000000 then 1 else s

/-- Standardize each feature vector and append the constant bias `1`. -/
def standardizedRows (rawFeatures : List (List ℚ)) (mean std : List ℚ) :
    List (List ℚ) :=
  rawFeatures.map fun f =>
    (f.enum.map fun p => (p.2 - mean.getD p.1 0) / std.getD p.1 0) ++ [1]

/-- The body of `computeGazeTransform` past its two early `null` returns:
standardize, build the normal equations twice (the source rebuilds `AᵀA`
because its Gaussian elimination is destructive), solve for both axes. -/
def calibFit (samples : List CalibrationSample) (lambda : ℚ) :
    Option GazeTransform :=
  let n := samples.length
  let numFeatures := numFeaturesOf samples
  let numParams := numFeatures + 1
  let rawFeatures := samples.map (·.features)
  let mean := sampleMean rawFeatures numFeatures n
  let std := sampleStd rawFeatures mean numFeatures n
  let rows := standardizedRows rawFeatures mean std
  let r1 := buildAtA rows samples lambda numFeatures numParams
  let r2 := buildAtA rows samples lambda numFeatures numParams
  match solveLinearSystem r1.1 r1.2.1, solveLinearSystem r2.1 r2.2.2 with
  | some xc, some yc => some ⟨xc, yc, mean, std, numFeatures⟩
  | _, _ => none

/-- Embeds `computeGazeTransform` of `src/core/calibration.ts`: `null` for an empty
sample list, `null` when `n < Math.min(numParams, 20)`, otherwise the ridge
fit (which can still fail on a singular system). -/
def computeGazeTransform (samples : List CalibrationSample)
    (lambda : ℚ := 10) : Option GazeTransform :=
  if samples.length = 0 then none
  else if samples.length < min (numFeaturesOf samples + 1) 20 then none
  else calibFit samples lambda

/- Batteries marks the `Rat` arithmetic operations `@[irreducible]` for
elaboration performance.  The concrete-input proofs below evaluate the
embedded functions with `decide`, which needs those operations to unfold
during elaboration; restoring the default reducibility (locally, for the rest
of this file) changes nothing about their kernel semantics. -/
attribute [local semireducible] Rat.add Rat.mul Rat.inv Rat.sub Rat.ofScientific

set_option maxRecDepth 1000000

/-! ### C1 — the sample-count floor of `computeGazeTransform` -/

/-- C1 (amended): `computeGazeTransform` returns `null` for every sample list
shorter than `min(featureDim + 1, 20)` — the source floor is `Math.min`, not
the claimed `Math.max`; in particular for a feature dimension of 124 it
returns `null` for every sample count below 20 (not 125). -/
theorem computeGazeTransform_below_floor_null (samples : List CalibrationSample)
    (lambda : ℚ)
    (h : samples.length < min (numFeaturesOf samples + 1) 20) :
    computeGazeTransform samples lambda = none := by
  unfold computeGazeTransform
  by_cases h0 : samples.length = 0
  · rw [if_pos h0]
  · rw [if_neg h0, if_pos h]

/-- Two 2-feature samples: below the `min(3, 20) = 3` floor. -/
def c1FloorSamples : List CalibrationSample :=
  [⟨[0, 0], ⟨0, 0⟩⟩, ⟨[1, 1], ⟨1, 1⟩⟩]

/-- C1 witness: two 2-feature samples are under the floor and yield `null`. -/
theorem computeGazeTransform_below_floor_null_witness :
    computeGazeTransform c1FloorSamples 10 = none :=
  computeGazeTransform_below_floor_null c1FloorSamples 10 (by decide)

/-- Three 2-feature samples, constant features (so the std guard sets
`std = 1` and standardized features vanish): the ridge system is diagonal and
solvable. -/
def c1Samples : List CalibrationSample :=
  [⟨[0, 0], ⟨0, 0⟩⟩, ⟨[0, 0], ⟨1, 0⟩⟩, ⟨[0, 0], ⟨0, 1⟩⟩]

/-- C1 counterexample: a sample list of length 3, below the claimed
`max(featureDim + 1, 20) = 20` floor for its feature dimension 2, on which
`computeGazeTransform` returns a fitted transform rather than `null` (the
source floor is `Math.min(numParams, 20)`, which is 3 here). -/
theorem computeGazeTransform_max_floor_counterexample :
    c1Samples.length < max (numFeaturesOf c1Samples + 1) 20 ∧
    computeGazeTransform c1Samples ≠ none := by
  constructor
  · decide
  · decide

/-! ### `applyGazeTransform` — JS semantics on out-of-contract inputs

`applyGazeTransform` performs no shape validation, so a feature vector of the
wrong length makes it read `undefined` past the end of an array and poison the
dot product with `NaN`.  To state that, its embedding tracks JS
number-or-not-a-finite-number values as `Option ℚ`: `none` models a value that
is no finite number (`undefined`, `NaN`, or `±Infinity` — division by zero is
conservatively sent to `none` too), and any arithmetic touching `none` stays
`none`, exactly as non-finite values propagate through JS `+`, `-`, `*`. -/

def jsAdd : Option ℚ → Option ℚ → Option ℚ
  | some a, some b => some (a + b)
  | _, _ => none

def jsSub : Option ℚ → Option ℚ → Option ℚ
  | some a, some b => some (a - b)
  | _, _ => none

def jsMul : Option ℚ → Option ℚ → Option ℚ
  | some a, some b => some (a * b)
  | _, _ => none

def jsDiv : Option ℚ → Option ℚ → Option ℚ
  | some a, some b => if b = 0 then none else some (a / b)
  | _, _ => none

/-- Embeds `features.map((v, i) => (v - t.featureMean[i]!) / t.featureStd[i]!)` with
JS index semantics: a read past the end of `mean`/`std` is `undefined` and the
entry becomes `NaN` (`none`). -/
def standardizeFeature (mean std : List ℚ) : ℕ → List ℚ → List (Option ℚ)
  | _, [] => []
  | i, v :: rest =>
    jsDiv (jsSub (some v) (mean.get? i)) (std.get? i) ::
      standardizeFeature mean std (i + 1) rest

/-- Embeds `applyGazeTransform` of `src/core/calibration.ts`: standardize with the
transform's stored mean/std, append the bias `1`, dot with each coefficient
vector over `numParams` indices.  No length check of any kind; out-of-range
reads are `undefined` (`none`). -/
def applyGazeTransform (t : GazeTransform) (features : List ℚ) :
    Option ℚ × Option ℚ :=
  let f := standardizeFeature t.featureMean t.featureStd 0 features ++ [some 1]
  (((List.range (t.numFeatures + 1)).map fun i =>
      jsMul (t.xCoeffs.get? i) (f.getD i none)).foldl jsAdd (some 0),
    ((List.range (t.numFeatures + 1)).map fun i =>
      jsMul (t.yCoeffs.get? i) (f.getD i none)).foldl jsAdd (some 0))

theorem jsMul_none_right (a : Option ℚ) : jsMul a none = none := by
  cases a <;> rfl

theorem foldl_jsAdd_none (l : List (Option ℚ)) : l.foldl jsAdd none = none := by
  induction l with
  | nil => rfl
  | cons x xs ih =>
    have h : jsAdd none x = none := rfl
    rw [List.foldl_cons, h, ih]

theorem foldl_jsAdd_of_mem {l : List (Option ℚ)} (h : none ∈ l) (s : Option ℚ) :
    l.foldl jsAdd s = none := by
  induction l generalizing s with
  | nil => cases h
  | cons x xs ih =>
    rw [List.foldl_cons]
    rcases List.mem_cons.1 h with h1 | h1
    · rw [← h1]
      rw [show jsAdd s none = none by cases s <;> rfl]
      exact foldl_jsAdd_none xs
    · exact ih h1 _

theorem standardizeFeature_length (mean std : List ℚ) :
    ∀ (i : ℕ) (l : List ℚ), (standardizeFeature mean std i l).length = l.length := by
  intro i l
  induction l generalizing i with
  | nil => rfl
  | cons v rest ih =>
    simp only [standardizeFeature, List.length_cons, ih]

theorem standardizeFeature_getD_none (mean std : List ℚ) :
    ∀ (l : List ℚ) (i k : ℕ), mean.length ≤ i + k → k < l.length →
      (standardizeFeature mean std i l).getD k none = none := by
  intro l
  induction l with
  | nil =>
    intro i k _ hk
    exact absurd hk (by simp)
  | cons v rest ih =>
    intro i k hm hk
    cases k with
    | zero =>
      have : mean.get? i = none := List.get?_eq_none.2 (by omega)
      simp only [standardizeFeature, List.getD_cons_zero, this]
      rfl
    | succ k =>
      simp only [standardizeFeature, List.getD_cons_succ]
      exact ih (i + 1) k (by omega) (by simpa using hk)

/-! ### C3 — apply on a mismatched feature vector -/

/-- C3 (amended): `applyGazeTransform` performs no shape validation and has no
failure channel at all; for every transform whose stored mean has its declared
`numFeatures` length, applying it to a feature vector of any other length
silently returns a garbage coordinate — both components are NaN-contaminated
(`none`) — instead of an assertion, panic or typed error. -/
theorem applyGazeTransform_mismatch_silent_nan (t : GazeTransform)
    (features : List ℚ)
    (hm : t.featureMean.length = t.numFeatures)
    (hlen : features.length ≠ t.numFeatures) :
    (applyGazeTransform t features).1 = none ∧
    (applyGazeTransform t features).2 = none := by
  have key : (standardizeFeature t.featureMean t.featureStd 0 features ++
      [some 1]).getD t.numFeatures none = none := by
    rcases Nat.lt_or_ge features.length t.numFeatures with hlt | hge
    · apply List.getD_eq_default
      simp only [List.length_append, standardizeFeature_length, List.length_singleton]
      omega
    · have hgt : t.numFeatures < features.length := by omega
      rw [List.getD_append _ _ _ _ (by
        rw [standardizeFeature_length]
        exact hgt)]
      exact standardizeFeature_getD_none t.featureMean t.featureStd features 0
        t.numFeatures (by omega) hgt
  have hmem : ∀ coeffs : List ℚ,
      none ∈ (List.range (t.numFeatures + 1)).map fun i =>
        jsMul (coeffs.get? i)
          ((standardizeFeature t.featureMean t.featureStd 0 features ++
            [some 1]).getD i none) := by
    intro coeffs
    refine List.mem_map.2 ⟨t.numFeatures, List.mem_range.2 (Nat.lt_succ_self _), ?_⟩
    rw [key]
    exact jsMul_none_right _
  constructor
  · simp only [applyGazeTransform]
    exact foldl_jsAdd_of_mem (hmem t.xCoeffs) _
  · simp only [applyGazeTransform]
    exact foldl_jsAdd_of_mem (hmem t.yCoeffs) _

/-- A well-formed 1-feature transform for the C3 input pair. -/
def c3Transform : GazeTransform := ⟨[2, 3], [4, 5], [0], [1], 1⟩

/-- C3 counterexample: applying a 1-feature transform to an empty feature
vector does not fail loudly in any way — the call completes normally and
returns the silently NaN-poisoned coordinate pair. -/
theorem applyGazeTransform_no_loud_failure_counterexample :
    applyGazeTransform c3Transform [] = (none, none) := by decide

/-- C3 witness: a too-long (2 vs 1) feature vector is also silently
NaN-poisoned. -/
theorem applyGazeTransform_mismatch_silent_nan_witness :
    (applyGazeTransform c3Transform [7, 8]).1 = none ∧
    (applyGazeTransform c3Transform [7, 8]).2 = none :=
  applyGazeTransform_mismatch_silent_nan c3Transform [7, 8] (by decide) (by decide)

/-! ## `src/composables/useAttention.ts` — the session state machine

`processResult` is embedded as a step function on an explicit session state
(the module-level refs and locals of the composable). -/

def DEBOUNCE_MS : ℚ := 300

def DROWSY_HOLD_MS : ℚ := 2000

/-- The filter options `useAttention` constructs its yaw/pitch filters with:
`{ minCutoff: 1.0, beta: 0.3 }` (dCutoff defaulted). -/
def sessionFilterParams : OneEuroParams :=
  createOneEuroFilter ⟨some 1, some (3 / 10), none⟩

/-- The mutable state of `useAttention`: the committed state, the last raw
classifier result, the session counters, and the debounce/drowsy-hold/filter
bookkeeping. -/
structure AttnSession where
  state : AttentionState
  raw : AttentionResult
  attentiveMs : ℚ
  totalMs : ℚ
  distractionCount : ℕ
  currentStreakMs : ℚ
  sessionStart : ℚ
  lastTimestamp : ℚ
  pendingState : Option AttentionState
  pendingAt : ℚ
  eyeClosedSince : ℚ
  yawFilter : OneEuroState
  pitchFilter : OneEuroState
deriving DecidableEq

/-- The module-load initial values of `useAttention`. -/
def attnInit : AttnSession where
  state := .absent
  raw := ⟨.absent, 0, 0, 0, false⟩
  attentiveMs := 0
  totalMs := 0
  distractionCount := 0
  currentStreakMs := 0
  sessionStart := 0
  lastTimestamp := 0
  pendingState := none
  pendingAt := 0
  eyeClosedSince := 0
  yawFilter := oneEuroInit
  pitchFilter := oneEuroInit

/-- Embeds `reset()` of `useAttention` at wall-clock time `t` (`performance.now()`):
re-absents the state, zeroes the counters, stamps the session start, resets
the filters.  (`raw` and `pendingAt` are not touched, as in the source.) -/
def attnReset (t : ℚ) (s : AttnSession) : AttnSession :=
  { s with
    state := .absent
    attentiveMs := 0
    totalMs := 0
    distractionCount := 0
    currentStreakMs := 0
    sessionStart := t
    lastTimestamp := 0
    pendingState := none
    eyeClosedSince := 0
    yawFilter := oneEuroInit
    pitchFilter := oneEuroInit }

/-- The head-pose filtering block of `processResult`: when a pose is present,
replace yaw/pitch with their filtered values (roll passes through). -/
def filteredObs (s : AttnSession) (d : TrackingResult) : TrackingResult :=
  match d.headPose with
  | some hp =>
    { d with
      headPose := some (EulerAngles.mk
        (oneEuroFilter sessionFilterParams s.yawFilter hp.yaw d.timestamp).1
        (oneEuroFilter sessionFilterParams s.pitchFilter hp.pitch d.timestamp).1
        hp.roll) }
  | none => d

/-- The filter states after the filtering block (unchanged when no pose). -/
def nextFilters (s : AttnSession) (d : TrackingResult) :
    OneEuroState × OneEuroState :=
  match d.headPose with
  | some hp =>
    ((oneEuroFilter sessionFilterParams s.yawFilter hp.yaw d.timestamp).2,
      (oneEuroFilter sessionFilterParams s.pitchFilter hp.pitch d.timestamp).2)
  | none => (s.yawFilter, s.pitchFilter)

/-- The updated `eyeClosedSince` of the drowsy-hold block: anchored at `now`
when a drowsy run starts, kept while it lasts, cleared otherwise. -/
def gatedEyeClosedSince (s : AttnSession) (rawState : AttentionState)
    (now : ℚ) : ℚ :=
  if rawState = .drowsy then
    (if s.eyeClosedSince = 0 then now else s.eyeClosedSince)
  else 0

/-- The drowsy-hold gate on the raw candidate: a raw `drowsy` is demoted to
`attentive` until continuous closure has lasted `DROWSY_HOLD_MS`. -/
def gatedCandidate (s : AttnSession) (rawState : AttentionState)
    (now : ℚ) : AttentionState :=
  if rawState = .drowsy then
    (if now - (if s.eyeClosedSince = 0 then now else s.eyeClosedSince) <
        DROWSY_HOLD_MS then .attentive
     else .drowsy)
  else rawState

/-- The outcome of the debounce block: committed state, pending bookkeeping,
distraction counter, and the streak value before accounting. -/
structure DebounceOut where
  state : AttentionState
  pendingState : Option AttentionState
  pendingAt : ℚ
  distractionCount : ℕ
  streakBase : ℚ
deriving DecidableEq

/-- The debounce block of `processResult`: a changed candidate first arms the
pending state, then commits once it has been pending `DEBOUNCE_MS`; committing
away from `attentive` counts a distraction, committing into `attentive` zeroes
the streak. -/
def debounceStep (s : AttnSession) (candidate : AttentionState) (now : ℚ) :
    DebounceOut :=
  if candidate ≠ s.state then
    if s.pendingState ≠ some candidate then
      ⟨s.state, some candidate, now, s.distractionCount, s.currentStreakMs⟩
    else if DEBOUNCE_MS ≤ now - s.pendingAt then
      ⟨candidate, none, s.pendingAt,
        if s.state = .attentive ∧ candidate ≠ .attentive then
          s.distractionCount + 1
        else s.distractionCount,
        if candidate = .attentive then 0 else s.currentStreakMs⟩
    else ⟨s.state, s.pendingState, s.pendingAt, s.distractionCount, s.currentStreakMs⟩
  else ⟨s.state, none, s.pendingAt, s.distractionCount, s.currentStreakMs⟩

/-- The session counters after the accounting block. -/
structure AccountingOut where
  totalMs : ℚ
  attentiveMs : ℚ
  streakMs : ℚ
deriving DecidableEq

/-- The accounting block of `processResult`: a delta accrues only when a
previous timestamp and a session start exist and `0 < dt < 1000`; attentive
time and streak accrue only while the (just-committed) state is `attentive`. -/
def accounting (s : AttnSession) (st : AttentionState) (streakBase now : ℚ) :
    AccountingOut :=
  if 0 < s.lastTimestamp ∧ 0 < s.sessionStart then
    if 0 < now - s.lastTimestamp ∧ now - s.lastTimestamp < 1000 then
      ⟨s.totalMs + (now - s.lastTimestamp),
        if st = .attentive then s.attentiveMs + (now - s.lastTimestamp)
        else s.attentiveMs,
        if st = .attentive then streakBase + (now - s.lastTimestamp)
        else streakBase⟩
    else ⟨s.totalMs, s.attentiveMs, streakBase⟩
  else ⟨s.totalMs, s.attentiveMs, streakBase⟩

/-- Embeds `processResult` of `useAttention`: filter the pose, classify, apply the
drowsy hold, debounce, account, and stamp `lastTimestamp`. -/
def processResult (s : AttnSession) (d : TrackingResult) : AttnSession :=
  let result := computeAttention (filteredObs s d)
  let deb := debounceStep s (gatedCandidate s result.state d.timestamp) d.timestamp
  let acc := accounting s deb.state deb.streakBase d.timestamp
  { state := deb.state
    raw := result
    attentiveMs := acc.attentiveMs
    totalMs := acc.totalMs
    distractionCount := deb.distractionCount
    currentStreakMs := acc.streakMs
    sessionStart := s.sessionStart
    lastTimestamp := d.timestamp
    pendingState := deb.pendingState
    pendingAt := deb.pendingAt
    eyeClosedSince := gatedEyeClosedSince s result.state d.timestamp
    yawFilter := (nextFilters s d).1
    pitchFilter := (nextFilters s d).2 }

/-! ### C9 — accounting accrues only sane positive deltas -/

theorem accounting_totalMs (s : AttnSession) (st : AttentionState)
    (b now : ℚ) :
    (accounting s st b now).totalMs = s.totalMs ∨
      (0 < now - s.lastTimestamp ∧ now - s.lastTimestamp < 1000 ∧
        (accounting s st b now).totalMs = s.totalMs + (now - s.lastTimestamp)) := by
  unfold accounting
  split
  · split
    · next h => exact Or.inr ⟨h.1, h.2, rfl⟩
    · exact Or.inl rfl
  · exact Or.inl rfl

theorem accounting_attentiveMs (s : AttnSession) (st : AttentionState)
    (b now : ℚ) :
    (accounting s st b now).attentiveMs = s.attentiveMs ∨
      (0 < now - s.lastTimestamp ∧ now - s.lastTimestamp < 1000 ∧
        (accounting s st b now).attentiveMs =
          s.attentiveMs + (now - s.lastTimestamp)) := by
  unfold accounting
  split
  · split
    · next h =>
      split
      · exact Or.inr ⟨h.1, h.2, rfl⟩
      · exact Or.inl rfl
    · exact Or.inl rfl
  · exact Or.inl rfl

theorem accounting_frozen (s : AttnSession) (st : AttentionState) (b now : ℚ)
    (h : ¬(0 < now - s.lastTimestamp ∧ now - s.lastTimestamp < 1000)) :
    (accounting s st b now).totalMs = s.totalMs ∧
      (accounting s st b now).attentiveMs = s.attentiveMs := by
  unfold accounting
  by_cases h1 : 0 < s.lastTimestamp ∧ 0 < s.sessionStart
  · rw [if_pos h1, if_neg h]
    exact ⟨rfl, rfl⟩
  · rw [if_neg h1]
    exact ⟨rfl, rfl⟩

/-- C9: `totalMs` and `attentiveMs` change across one `processResult` step
only by the inter-observation delta `dt = d.timestamp - lastTimestamp`, and
only when `0 < dt < 1000`; an observation whose delta is zero, negative, or at
least 1000 contributes nothing to either counter. -/
theorem session_accounting_delta_guard (s : AttnSession) (d : TrackingResult) :
    ((processResult s d).totalMs = s.totalMs ∨
      (0 < d.timestamp - s.lastTimestamp ∧ d.timestamp - s.lastTimestamp < 1000 ∧
        (processResult s d).totalMs =
          s.totalMs + (d.timestamp - s.lastTimestamp))) ∧
    ((processResult s d).attentiveMs = s.attentiveMs ∨
      (0 < d.timestamp - s.lastTimestamp ∧ d.timestamp - s.lastTimestamp < 1000 ∧
        (processResult s d).attentiveMs =
          s.attentiveMs + (d.timestamp - s.lastTimestamp))) ∧
    (¬(0 < d.timestamp - s.lastTimestamp ∧ d.timestamp - s.lastTimestamp < 1000) →
      (processResult s d).totalMs = s.totalMs ∧
        (processResult s d).attentiveMs = s.attentiveMs) := by
  refine ⟨?_, ?_, ?_⟩
  · exact accounting_totalMs s _ _ d.timestamp
  · exact accounting_attentiveMs s _ _ d.timestamp
  · exact accounting_frozen s _ _ d.timestamp

/-! ### C2 — when the attentive streak is zeroed -/

theorem debounceStep_cases (s : AttnSession) (c : AttentionState) (now : ℚ) :
    ((debounceStep s c now).state = s.state ∧
      (debounceStep s c now).streakBase = s.currentStreakMs) ∨
    ((debounceStep s c now).state = c ∧
      (debounceStep s c now).streakBase =
        (if c = .attentive then 0 else s.currentStreakMs)) := by
  unfold debounceStep
  split
  · split
    · exact Or.inl ⟨rfl, rfl⟩
    · split
      · exact Or.inr ⟨rfl, rfl⟩
      · exact Or.inl ⟨rfl, rfl⟩
  · exact Or.inl ⟨rfl, rfl⟩

theorem accounting_streakMs (s : AttnSession) (st : AttentionState)
    (b now : ℚ) :
    (accounting s st b now).streakMs =
      if st = .attentive ∧ 0 < s.lastTimestamp ∧ 0 < s.sessionStart ∧
          0 < now - s.lastTimestamp ∧ now - s.lastTimestamp < 1000 then
        b + (now - s.lastTimestamp)
      else b := by
  unfold accounting
  split_ifs with h1 h2 h3 h4 h5 h6 h7 <;> first | rfl | (exfalso ; tauto)

/-- C2 (amended): `processResult` zeroes the attentive streak at the
observation where the committed state transitions INTO `attentive` (the zeroed
streak then accrues that observation's delta when the accounting guards hold);
at an observation where the committed state transitions AWAY from `attentive`
the streak is NOT reset — it keeps its previous value, frozen, since it only
accrues while the committed state is `attentive`. -/
theorem attentive_streak_reset_on_entry (s : AttnSession) (d : TrackingResult) :
    (s.state = .attentive → (processResult s d).state ≠ .attentive →
      (processResult s d).currentStreakMs = s.currentStreakMs) ∧
    (s.state ≠ .attentive → (processResult s d).state = .attentive →
      (processResult s d).currentStreakMs =
        (if 0 < s.lastTimestamp ∧ 0 < s.sessionStart ∧
            0 < d.timestamp - s.lastTimestamp ∧ d.timestamp - s.lastTimestamp < 1000
          then d.timestamp - s.lastTimestamp else 0)) := by
  set c := gatedCandidate s (computeAttention (filteredObs s d)).state d.timestamp with hc
  have hstate : (processResult s d).state = (debounceStep s c d.timestamp).state := rfl
  have hstreak : (processResult s d).currentStreakMs =
      (accounting s (debounceStep s c d.timestamp).state
        (debounceStep s c d.timestamp).streakBase d.timestamp).streakMs := rfl
  rcases debounceStep_cases s c d.timestamp with ⟨h1, h2⟩ | ⟨h1, h2⟩
  · constructor
    · intro ha hb
      rw [hstate, h1] at hb
      exact absurd ha hb
    · intro ha hb
      rw [hstate, h1] at hb
      exact absurd hb ha
  · constructor
    · intro ha hb
      rw [hstate, h1] at hb
      rw [hstreak, accounting_streakMs, h1, h2, if_neg hb,
        if_neg (fun hcon => hb hcon.1)]
    · intro ha hb
      rw [hstate, h1] at hb
      rw [hstreak, accounting_streakMs, h1, h2, if_pos hb]
      by_cases hg : 0 < s.lastTimestamp ∧ 0 < s.sessionStart ∧
          0 < d.timestamp - s.lastTimestamp ∧ d.timestamp - s.lastTimestamp < 1000
      · rw [if_pos ⟨hb, hg⟩, if_pos hg, zero_add]
      · rw [if_neg (fun hcon => hg hcon.2), if_neg hg]

/-- A neutral face: 478 copies of the image midpoint.  Both eyes read as
degenerate (zero corner span), so the EAR is the fully-open 1 and the raw
classification with a present face and a neutral pose is `attentive`. -/
def neutralFace : List Point3D := List.replicate 478 ⟨1/2, 1/2, 0⟩

/-- A face-present observation at time `t` (no head pose, so the session
filters pass through untouched). -/
def mkFaceObs (t : ℚ) : TrackingResult :=
  ⟨some ⟨1/2, 1/2⟩, none, some neutralFace, 10, t⟩

/-- A no-face observation at time `t`. -/
def mkNoFaceObs (t : ℚ) : TrackingResult :=
  ⟨none, none, none, 10, t⟩

/-- After a reset at 1: attentive is pending at 1000, committed at 1300
(streak 300 after accounting), still committed at 1600 with `absent` pending
(streak 600). -/
def c2Before : AttnSession :=
  [mkFaceObs 1000, mkFaceObs 1300, mkNoFaceObs 1600].foldl processResult
    (attnReset 1 attnInit)

/-- The observation at 1900 commits the transition away from `attentive`. -/
def c2After : AttnSession := processResult c2Before (mkNoFaceObs 1900)

/-- C2 counterexample: at the concrete observation where the committed state
transitions away from `attentive` (attentive at 1600, absent committed at
1900), the attentive streak does NOT become zero — it retains its previous
600ms value. -/
theorem attentive_streak_retained_on_leaving_counterexample :
    c2Before.state = .attentive ∧ c2After.state ≠ .attentive ∧
      c2After.currentStreakMs = 600 := by decide

/-! ### C5 — closures shorter than the drowsy hold never commit `drowsy` -/

/-- The per-observation trace of a session run: the raw classifier state and
the timestamp of each observation, in order. -/
def attnTrace (s : AttnSession) : List TrackingResult → List (AttentionState × ℚ)
  | [] => []
  | d :: ds =>
    ((processResult s d).raw.state, d.timestamp) :: attnTrace (processResult s d) ds

/-- The committed state after each observation of a session run, in order. -/
def attnStates (s : AttnSession) : List TrackingResult → List AttentionState
  | [] => []
  | d :: ds => (processResult s d).state :: attnStates (processResult s d) ds

/-- Default trace entry for out-of-range reads (never hit in the proofs). -/
def tdef : AttentionState × ℚ := (.absent, 0)

/-- Every maximal run of raw-`drowsy` observations in the trace spans less
than `DROWSY_HOLD_MS`: whenever the observations `i..j` all classified raw
`drowsy`, the elapsed time from `i` to `j` is under the hold. -/
abbrev ShortClosureRuns (T : List (AttentionState × ℚ)) : Prop :=
  ∀ j, j < T.length → ∀ i, i ≤ j →
    (∀ k, k ≤ j → i ≤ k → (T.getD k tdef).1 = .drowsy) →
    (T.getD j tdef).2 - (T.getD i tdef).2 < DROWSY_HOLD_MS

theorem getD_append_length {α : Type} (l : List α) (x : α) (r : List α) (d : α) :
    (l ++ x :: r).getD l.length d = x := by
  rw [List.getD_append_right _ _ _ _ (le_refl l.length), Nat.sub_self]
  rfl

/-- The drowsy-hold invariant, carried along a run: the committed state is not
`drowsy`, and `eyeClosedSince` is either unset or the timestamp of some
observation of the (still running) raw-`drowsy` suffix of the processed
prefix `pre`. -/
theorem drowsy_gate_aux (rest : List TrackingResult) :
    ∀ (s : AttnSession) (pre : List (AttentionState × ℚ)),
      s.state ≠ .drowsy →
      (s.eyeClosedSince = 0 ∨
        ∃ k, k < pre.length ∧
          (∀ l, k ≤ l → l < pre.length → (pre.getD l tdef).1 = .drowsy) ∧
          s.eyeClosedSince = (pre.getD k tdef).2) →
      ShortClosureRuns (pre ++ attnTrace s rest) →
      AttentionState.drowsy ∉ attnStates s rest := by
  induction rest with
  | nil =>
    intro s pre _ _ _
    simp [attnStates]
  | cons d ds ih =>
    intro s pre hstate hecs hH
    set r := (computeAttention (filteredObs s d)).state with hr
    set t := d.timestamp with ht
    have htrace : attnTrace s (d :: ds) =
        (r, t) :: attnTrace (processResult s d) ds := rfl
    have hstates : attnStates s (d :: ds) =
        (processResult s d).state :: attnStates (processResult s d) ds := rfl
    rw [htrace] at hH
    unfold ShortClosureRuns at hH
    have hcand : gatedCandidate s r t ≠ .drowsy := by
      unfold gatedCandidate
      by_cases hrd : r = .drowsy
      · rw [if_pos hrd]
        by_cases he0 : s.eyeClosedSince = 0
        · rw [if_pos he0, if_pos (by rw [sub_self]; norm_num [DROWSY_HOLD_MS])]
          decide
        · rw [if_neg he0]
          obtain ⟨k, hk, hrun, hecsk⟩ := hecs.resolve_left he0
          have hj : pre.length <
              (pre ++ (r, t) :: attnTrace (processResult s d) ds).length := by
            simp
          have hrunfull : ∀ k', k' ≤ pre.length → k ≤ k' →
              (((pre ++ (r, t) :: attnTrace (processResult s d) ds).getD k'
                tdef)).1 = .drowsy := by
            intro k' hk'le hkk'
            rcases Nat.lt_or_ge k' pre.length with hlt | hge
            · rw [List.getD_append _ _ _ _ hlt]
              exact hrun k' hkk' hlt
            · have hEq : k' = pre.length := by omega
              subst hEq
              rw [getD_append_length]
              exact hrd
          have happ := hH pre.length hj k (le_of_lt hk) hrunfull
          rw [getD_append_length, List.getD_append _ _ _ _ hk] at happ
          rw [if_pos (by rw [hecsk]; exact happ)]
          decide
      · rw [if_neg hrd]
        exact hrd
    have hstate' : (processResult s d).state ≠ .drowsy := by
      have hps : (processResult s d).state =
          (debounceStep s (gatedCandidate s r t) t).state := rfl
      rcases debounceStep_cases s (gatedCandidate s r t) t with ⟨h1, _⟩ | ⟨h1, _⟩
      · rw [hps, h1]
        exact hstate
      · rw [hps, h1]
        exact hcand
    have hecs' : (processResult s d).eyeClosedSince = 0 ∨
        ∃ k, k < (pre ++ [(r, t)]).length ∧
          (∀ l, k ≤ l → l < (pre ++ [(r, t)]).length →
            ((pre ++ [(r, t)]).getD l tdef).1 = .drowsy) ∧
          (processResult s d).eyeClosedSince = ((pre ++ [(r, t)]).getD k tdef).2 := by
      have hpe : (processResult s d).eyeClosedSince = gatedEyeClosedSince s r t := rfl
      unfold gatedEyeClosedSince at hpe
      by_cases hrd : r = .drowsy
      · rw [if_pos hrd] at hpe
        by_cases he0 : s.eyeClosedSince = 0
        · rw [if_pos he0] at hpe
          refine Or.inr ⟨pre.length, by simp, ?_, ?_⟩
          · intro l hl1 hl2
            have hl3 : l < pre.length + 1 := by simpa using hl2
            have hEq : l = pre.length := by omega
            subst hEq
            rw [getD_append_length]
            exact hrd
          · rw [hpe, getD_append_length]
        · rw [if_neg he0] at hpe
          obtain ⟨k, hk, hrun, hecsk⟩ := hecs.resolve_left he0
          refine Or.inr ⟨k, by simp [Nat.lt_succ_of_lt hk], ?_, ?_⟩
          · intro l hl1 hl2
            rcases Nat.lt_or_ge l pre.length with hlt | hge
            · rw [List.getD_append _ _ _ _ hlt]
              exact hrun l hl1 hlt
            · have hl3 : l < pre.length + 1 := by simpa using hl2
              have hEq : l = pre.length := by omega
              subst hEq
              rw [getD_append_length]
              exact hrd
          · rw [hpe, hecsk, List.getD_append _ _ _ _ hk]
      · rw [if_neg hrd] at hpe
        exact Or.inl hpe
    have hH' : ShortClosureRuns
        ((pre ++ [(r, t)]) ++ attnTrace (processResult s d) ds) := by
      unfold ShortClosureRuns
      intro j hj i hij hrunf
      have hEq : (pre ++ [(r, t)]) ++ attnTrace (processResult s d) ds =
          pre ++ (r, t) :: attnTrace (processResult s d) ds := by
        simp
      rw [hEq] at hj hrunf ⊢
      exact hH j hj i hij hrunf
    rw [hstates]
    intro hmem
    rcases List.mem_cons.1 hmem with hmem | hmem
    · exact hstate' hmem.symm
    · exact ih (processResult s d) (pre ++ [(r, t)]) hstate' hecs' hH' hmem

/-- C5: starting from a reset session, for every observation sequence in which
every maximal run of raw-`drowsy` observations (eyes read closed with a face
present and the filtered pose within thresholds) spans less than the 2000ms
`DROWSY_HOLD_MS`, the committed state is never `drowsy` after any observation:
such short closures are demoted to `attentive` candidates by the hold gate. -/
theorem short_closures_never_commit_drowsy (t0 : ℚ) (obs : List TrackingResult)
    (h : ShortClosureRuns (attnTrace (attnReset t0 attnInit) obs)) :
    AttentionState.drowsy ∉ attnStates (attnReset t0 attnInit) obs := by
  have h0 : (attnReset t0 attnInit).state ≠ AttentionState.drowsy :=
    fun hcon => nomatch hcon
  exact drowsy_gate_aux obs (attnReset t0 attnInit) [] h0 (Or.inl rfl)
    (by rw [List.nil_append]; exact h)

/-- A face-present observation with both eyes closed (EAR 1/50 < 0.2). -/
def mkClosedObs (t : ℚ) : TrackingResult :=
  ⟨some ⟨1/2, 1/2⟩, none, some closedEyeLandmarks, 10, t⟩

/-- C5 witness: a 300ms single-observation eye closure at 1000 followed by an
open-eyed observation at 1300 satisfies the short-runs hypothesis, and no
committed state along the run is `drowsy`. -/
theorem short_closures_never_commit_drowsy_witness :
    AttentionState.drowsy ∉
      attnStates (attnReset 1 attnInit) [mkClosedObs 1000, mkFaceObs 1300] :=
  short_closures_never_commit_drowsy 1 [mkClosedObs 1000, mkFaceObs 1300]
    (by decide)
